import Mathlib

/-!
Shallow embedding of the telemetry correlation and aggregation engine of
`stage1-baseline/07-analyze-network-data.py` and of the aggregation logic in
`stage1-baseline/06-generate-graphs.py`.

Modelling conventions:
* Python floats are modelled as exact rationals (`ℚ`), Python ints as `ℤ`/`ℕ`,
  strings as `String`, `None` as `Option.none`, dictionaries as association
  lists whose key order is the Python insertion (first-occurrence) order.
* A Python list index access `xs[i]` (negative index counts from the end and
  an out-of-range access raises `IndexError`) is modelled by `pyGet`, which
  returns `none` where Python would raise.
* `round(x, 2)` is modelled by `round2` (round to nearest with `round`); the
  Python tie-breaking rule (half-to-even, on binary floats) differs only at
  exact ties, which none of the statements below touch.
-/

namespace NetAnalysis

/-- Python list indexing `xs[i]`: a negative index counts from the end;
an out-of-range access (Python: `IndexError`) is `none`. -/
def pyGet (xs : List ℚ) (i : ℤ) : Option ℚ :=
  let j : ℤ := if i < 0 then (xs.length : ℤ) + i else i
  if 0 ≤ j then xs[j.toNat]? else none

/-- The interpolation position `pos = (len(values) - 1) * (q / 100.0)` used
by `percentile` (07-analyze-network-data.py, line 27). -/
def percentilePos (n : ℕ) (q : ℚ) : ℚ :=
  ((n : ℚ) - 1) * (q / 100)

/-- The function `percentile(values, q)` of 07-analyze-network-data.py, lines 22-33:
`None` on empty input, the sole element for a singleton list, otherwise
linear interpolation between `values[floor(pos)]` and `values[ceil(pos)]`. -/
def percentile (values : List ℚ) (q : ℚ) : Option ℚ :=
  if values.length = 0 then none
  else if values.length = 1 then pyGet values 0
  else
    let pos : ℚ := percentilePos values.length q
    let low : ℤ := ⌊pos⌋
    let high : ℤ := ⌈pos⌉
    if low = high then pyGet values low
    else
      let weight : ℚ := pos - (low : ℚ)
      match pyGet values low, pyGet values high with
      | some vl, some vh => some (vl * (1 - weight) + vh * weight)
      | _, _ => none

/-! ## Pod placement (`summarize_pod_placement`, 07-analyze-network-data.py lines 94-176) -/

/-- One pod record of a placement snapshot.  The three fields mirror
`metadata.name`, `metadata.labels.app` and `spec.nodeName`; `none` models a
missing key in the raw payload. -/
structure Pod where
  name : Option String
  app : Option String
  node : Option String
deriving DecidableEq

/-- Access `md.get("name", "unknown")` (line 106). -/
def podName (p : Pod) : String := p.name.getD "unknown"

/-- Access `labels.get("app", "unknown")` (line 107). -/
def podApp (p : Pod) : String := p.app.getD "unknown"

/-- Access `spec.get("nodeName", "unknown")` (line 108). -/
def podNode (p : Pod) : String := p.node.getD "unknown"

/-- A placement snapshot: timestamp and pod items
(`load_pod_snapshots`, lines 62-75). -/
structure Snapshot where
  timestamp : String
  items : List Pod
deriving DecidableEq

/-- The key sequence of a Python dict built by repeated insertion: every key
once, in first-occurrence order. -/
def firstDedup : List String → List String
  | [] => []
  | x :: xs => x :: (firstDedup xs).filter (fun y => y ≠ x)

/-- One entry of the per-pod history appended at line 110:
`{"timestamp": ts, "node": node, "app": app}`. -/
structure HistEntry where
  timestamp : String
  node : String
  app : String
deriving DecidableEq

/-- The history `pod_history[name]`: the `(timestamp, node, app)` entries of the pod
called `name`, in snapshot order (lines 95-110). -/
def podEntries (snaps : List Snapshot) (name : String) : List HistEntry :=
  snaps.flatMap fun s =>
    (s.items.filter fun p => podName p = name).map fun p =>
      ⟨s.timestamp, podNode p, podApp p⟩

/-- All pod names in first-occurrence order: the key order of `pod_history`. -/
def allPodNames (snaps : List Snapshot) : List String :=
  firstDedup (snaps.flatMap fun s => s.items.map podName)

/-- The set of distinct node values in a pod's history
(`set(nodes)`, line 117); only its size and membership are used. -/
def distinctNodes (snaps : List Snapshot) (name : String) : List String :=
  ((podEntries snaps name).map (·.node)).dedup

/-- The report `pod_movements` (lines 114-119): pods whose history holds more than one
distinct node, each carrying its full entry list. -/
def podMovements (snaps : List Snapshot) : List (String × List HistEntry) :=
  (allPodNames snaps).filterMap fun n =>
    if 1 < (distinctNodes snaps n).length then some (n, podEntries snaps n) else none

/-- The validity test `if node and node != "unknown"` (lines 132, 152). -/
def validNode (p : Pod) : Bool :=
  podNode p ≠ "" && podNode p ≠ "unknown"

/-- The count `counter[app][node]` for one snapshot: the number of pods of service
`svc` on node `nd`, counting only valid nodes (lines 148-153). -/
def countIn (snap : Snapshot) (svc nd : String) : ℕ :=
  (snap.items.filter fun p => validNode p && podApp p = svc && podNode p = nd).length

/-- The accumulated count `total = sum(snap.get(svc, {}).get(node, 0) ...)`
(line 161). -/
def sumPodCount (snaps : List Snapshot) (svc nd : String) : ℕ :=
  (snaps.map fun s => countIn s svc nd).sum

/-- The exact average `total / n_snapshots` before rounding (line 162). -/
def avgPodCountExact (snaps : List Snapshot) (svc nd : String) : ℚ :=
  (sumPodCount snaps svc nd : ℚ) / (snaps.length : ℚ)

/-- Python `round(x, 2)`: rounding to two decimal places. -/
def round2 (x : ℚ) : ℚ := (round (x * 100) : ℚ) / 100

/-- The emitted `pod_count_by_node_avg[node] = round(total / n_snapshots, 2)`
(line 162). -/
def avgPodCount (snaps : List Snapshot) (svc nd : String) : ℚ :=
  round2 (avgPodCountExact snaps svc nd)

/-- The grid axis `all_services_avg`, sorted (line 158). -/
def allServicesAvg (snaps : List Snapshot) : List String :=
  (firstDedup ((snaps.flatMap fun s => s.items.filter validNode).map podApp)).mergeSort
    (fun a b => a ≤ b)

/-- The grid axis `all_nodes_avg`, sorted (line 160). -/
def allNodesAvg (snaps : List Snapshot) : List String :=
  (firstDedup ((snaps.flatMap fun s => s.items.filter validNode).map podNode)).mergeSort
    (fun a b => a ≤ b)

/-- The per-service record stored in `service_node_spread` (latest snapshot,
lines 134-139) and `service_node_spread_avg` (lines 163-167); counts are
rationals so that one structure covers both the integer and averaged case. -/
structure SpreadInfo where
  nodes_used : List String
  node_count : ℕ
  pod_count_by_node : List (String × ℚ)
deriving DecidableEq

/-- The mapping `service_node_spread_avg` (lines 141-167): for every service seen with a
valid node, a row over the full sorted node grid of averaged counts. -/
def serviceNodeSpreadAvg (snaps : List Snapshot) : List (String × SpreadInfo) :=
  if snaps.isEmpty then []
  else
    (allServicesAvg snaps).map fun svc =>
      (svc,
        { nodes_used := allNodesAvg snaps
          node_count := (allNodesAvg snaps).length
          pod_count_by_node :=
            (allNodesAvg snaps).map fun nd => (nd, avgPodCount snaps svc nd) })

/-- The value `latest_ts = sorted(ts_node_to_pods.keys())[-1] if ts_node_to_pods else None`
(line 121): the greatest timestamp among the ingested snapshots. -/
def latestTs (snaps : List Snapshot) : Option String :=
  match snaps.map (·.timestamp) with
  | [] => none
  | t :: ts => some (ts.foldl (fun a b => if a ≤ b then b else a) t)

/-- The mapping `node_to_pods` of one snapshot (lines 100-111), with the pod lists sorted
as in `{k: sorted(v) for k, v in latest.items()}` (line 171). -/
def nodeToPods (snap : Snapshot) : List (String × List String) :=
  (firstDedup (snap.items.map podNode)).map fun nd =>
    (nd, ((snap.items.filter fun p => podNode p = nd).map podName).mergeSort
      (fun a b => a ≤ b))

/-- The mapping `latest_node_to_pods`: the node map of the last snapshot carrying the
latest timestamp (`ts_node_to_pods[latest_ts]`, dict overwrite on equal
timestamps keeps the last one). -/
def latestNodeToPods (snaps : List Snapshot) : List (String × List String) :=
  match latestTs snaps with
  | none => []
  | some ts =>
    match (snaps.filter fun s => s.timestamp = ts).getLast? with
    | none => []
    | some snap => nodeToPods snap

/-- The mapping `service_node_spread` (lines 124-139): spread of the first snapshot whose
timestamp equals the latest timestamp, integer counts. -/
def serviceNodeSpread (snaps : List Snapshot) : List (String × SpreadInfo) :=
  match latestTs snaps with
  | none => []
  | some ts =>
    match snaps.find? (fun s => s.timestamp = ts) with
    | none => []
    | some snap =>
      (firstDedup ((snap.items.filter validNode).map podApp)).map fun svc =>
        let nds :=
          firstDedup ((snap.items.filter fun p => validNode p && podApp p = svc).map podNode)
        (svc,
          { nodes_used := nds.mergeSort (fun a b => a ≤ b)
            node_count := nds.length
            pod_count_by_node := nds.map fun nd => (nd, (countIn snap svc nd : ℚ)) })

/-- The value returned by `summarize_pod_placement` (lines 169-176). -/
structure PlacementSummary where
  latest_timestamp : Option String
  latest_node_to_pods : List (String × List String)
  pod_movements : List (String × List HistEntry)
  service_node_spread : List (String × SpreadInfo)
  service_node_spread_avg : List (String × SpreadInfo)
  snapshot_count : ℕ
deriving DecidableEq

/-- The summary `summarize_pod_placement(pod_snapshots)` (lines 94-176). -/
def summarizePodPlacement (snaps : List Snapshot) : PlacementSummary :=
  { latest_timestamp := latestTs snaps
    latest_node_to_pods := latestNodeToPods snaps
    pod_movements := podMovements snaps
    service_node_spread := serviceNodeSpread snaps
    service_node_spread_avg := serviceNodeSpreadAvg snaps
    snapshot_count := snaps.length }

/-! ## Service-to-service probes
(`load_service_to_service`, 07-analyze-network-data.py lines 276-367, and the
record shape produced by `load_s2s_data`, 06-generate-graphs.py lines 437-470) -/

/-- One parsed latency probe: identity fields with their loader defaults
applied, and the sparse metric bag parsed out of the free-form
`key=value` probe string (absent metric = `none`). -/
structure Probe where
  timestamp : String
  source_pod : String
  source_node : String
  target_service : String
  dns : Option ℚ
  connect : Option ℚ
  ttfb : Option ℚ
  total : Option ℚ
  code : Option ℤ
deriving DecidableEq

/-- The path key `f"{source_pod}->{target_service}"` (line 297). -/
def probePath (r : Probe) : String :=
  r.source_pod ++ "->" ++ r.target_service

/-- The probes bucketed under one path key, in input order. -/
def pathProbes (probes : List Probe) (path : String) : List Probe :=
  probes.filter fun r => probePath r = path

/-- The list `path_stats[path]["connect"]` (lines 302-304): the `connect` values of
the path's probes that carry that metric, in input order. -/
def connectList (probes : List Probe) (path : String) : List ℚ :=
  (pathProbes probes path).filterMap (·.connect)

/-- The list `path_stats[path]["ttfb"]` (lines 302-304). -/
def ttfbList (probes : List Probe) (path : String) : List ℚ :=
  (pathProbes probes path).filterMap (·.ttfb)

/-- The list `path_stats[path]["total"]` (lines 302-304). -/
def totalList (probes : List Probe) (path : String) : List ℚ :=
  (pathProbes probes path).filterMap (·.total)

/-- The list `queueing_list` (lines 324-327): the ttfb list zipped positionally with
the connect list, value `t - c`.  The guard `if t is not None and c is not
None` of the source is vacuous (both lists hold floats only) and is dropped. -/
def queueingList (probes : List Probe) (path : String) : List ℚ :=
  List.zipWith (fun t c => t - c) (ttfbList probes path) (connectList probes path)

/-- The same-probe queueing value the spec describes: `ttfb - connect` when
both metrics are present in one probe. -/
def pairQueueing (r : Probe) : Option ℚ :=
  match r.ttfb, r.connect with
  | some t, some c => some (t - c)
  | _, _ => none

/-- Access `service_to_nodes.get(svc, set())`: lookup with empty default
(line 309). -/
def lookupNodes (s2n : List (String × List String)) (svc : String) : List String :=
  (s2n.lookup svc).getD []

/-- The counter `all_total` (lines 309-313): probes counted by the intra-node ratio;
`source_node` is truthy whenever nonempty (the loader turns a missing or
empty field into `"unknown"`). -/
def allTotal07 (probes : List Probe) (s2n : List (String × List String)) : ℕ :=
  (probes.filter fun r =>
    r.source_node ≠ "" && lookupNodes s2n r.target_service ≠ []).length

/-- The counter `same_node_total` (lines 312-313). -/
def sameNodeTotal07 (probes : List Probe) (s2n : List (String × List String)) : ℕ :=
  (probes.filter fun r =>
    r.source_node ≠ "" && lookupNodes s2n r.target_service ≠ [] &&
      r.source_node ∈ lookupNodes s2n r.target_service).length

/-- The probes the ratio counts that are not same-node. -/
def crossNodeTotal07 (probes : List Probe) (s2n : List (String × List String)) : ℕ :=
  (probes.filter fun r =>
    r.source_node ≠ "" && lookupNodes s2n r.target_service ≠ [] &&
      r.source_node ∉ lookupNodes s2n r.target_service).length

/-- The fraction `intra_node_ratio` (line 361). -/
def intraNodeRatio (probes : List Probe) (s2n : List (String × List String)) : Option ℚ :=
  if 0 < allTotal07 probes s2n then
    some ((sameNodeTotal07 probes s2n : ℚ) / (allTotal07 probes s2n : ℚ))
  else none

/-- The same-node latency pool of `plot_same_vs_cross_node_cdf`
(06-generate-graphs.py lines 572-584). -/
def cdfSamePool (recs : List Probe) (s2n : List (String × List String)) : List ℚ :=
  recs.filterMap fun r =>
    match r.total with
    | none => none
    | some t =>
      if r.source_node = "unknown" ∨ lookupNodes s2n r.target_service = [] then none
      else if r.source_node ∈ lookupNodes s2n r.target_service then some t else none

/-- The cross-node latency pool of `plot_same_vs_cross_node_cdf`. -/
def cdfCrossPool (recs : List Probe) (s2n : List (String × List String)) : List ℚ :=
  recs.filterMap fun r =>
    match r.total with
    | none => none
    | some t =>
      if r.source_node = "unknown" ∨ lookupNodes s2n r.target_service = [] then none
      else if r.source_node ∈ lookupNodes s2n r.target_service then none else some t

/-- The heuristic `pod_to_app` (06-generate-graphs.py lines 522-524):
`pod_name.rsplit("-", 2)[0]` when the name holds a dash, else the name:
the name with its last (at most two) dash-separated tokens removed. -/
def podToApp (name : String) : String :=
  let parts := name.splitOn "-"
  if 2 ≤ parts.length then
    String.intercalate "-" (parts.take (parts.length - min 2 (parts.length - 1)))
  else name

/-- The pair key of `plot_cross_node_ratio` (line 531). -/
def pairKey (r : Probe) : String :=
  podToApp r.source_pod ++ "->" ++ r.target_service

/-- The counter `pair_counts[pair]["total"]` (line 533): every record of the pair is
counted. -/
def pairTotal (recs : List Probe) (key : String) : ℕ :=
  (recs.filter fun r => pairKey r = key).length

/-- The counter `pair_counts[pair]["cross"]` (lines 534-535). -/
def pairCross (recs : List Probe) (s2n : List (String × List String)) (key : String) : ℕ :=
  (recs.filter fun r =>
    pairKey r = key && r.source_node ∉ lookupNodes s2n r.target_service).length

/-- The pool `by_ts[ts]["queueing"]` of `plot_queueing_vs_rtt`
(06-generate-graphs.py lines 731-740): only records with both metrics,
`connect >= 0` and `ttfb - connect >= 0` contribute. -/
def queueingByTs (recs : List Probe) (ts : String) : List ℚ :=
  recs.filterMap fun r =>
    if r.timestamp = ts then
      match r.connect, r.ttfb with
      | some c, some t =>
        if 0 ≤ c then (if 0 ≤ t - c then some (t - c) else none) else none
      | _, _ => none
    else none

/-- The pool `by_ts[ts]["connect"]` of `plot_queueing_vs_rtt`. -/
def connectByTs (recs : List Probe) (ts : String) : List ℚ :=
  recs.filterMap fun r =>
    if r.timestamp = ts then
      match r.connect, r.ttfb with
      | some c, some t =>
        if 0 ≤ c then (if 0 ≤ t - c then some c else none) else none
      | _, _ => none
    else none

/-! ## Latency vs replicas (`build_latency_vs_replicas`,
07-analyze-network-data.py lines 399-467) -/

/-- The desired/current replica block of one autoscaler
(`load_hpa_snapshots`, lines 390-393); `none` models a missing
`desiredReplicas`/`currentReplicas` status field. -/
structure HpaInfo where
  desired : Option ℤ
  current : Option ℤ
deriving DecidableEq

/-- How a replica cell is rendered in the CSV: an autoscaler present in the
snapshot prints its (possibly `None`) count, an absent one prints `""`. -/
def replicaCell : Option ℤ → String
  | none => "None"
  | some k => toString k

/-- One CSV row: the timestamp, one `(name, desired, current)` string triple
per autoscaler column, and the two latency percentile cells (`none` prints
as the empty cell). -/
structure CsvRow where
  timestamp : String
  reps : List (String × String × String)
  p95 : Option ℚ
  p99 : Option ℚ
deriving DecidableEq

/-- Access `by_ts.get(ts, [])` (lines 409-423): the `total` values of probes at a
given timestamp; the empty timestamp is never a key (`if not ts: continue`). -/
def totalsAtTs (probes : List Probe) (ts : String) : List ℚ :=
  if ts = "" then []
  else (probes.filter fun r => r.timestamp = ts).filterMap (·.total)

/-- The keys of `by_ts`, in first-occurrence order: timestamps of probes
with a nonempty timestamp and a `total` metric. -/
def probeTsKeys (probes : List Probe) : List String :=
  firstDedup
    (((probes.filter fun r => r.timestamp ≠ "" && r.total.isSome)).map (·.timestamp))

/-- The columns `all_hpa_names` (lines 426-429): sorted union of autoscaler names. -/
def allHpaNames (hpa : List (String × List (String × HpaInfo))) : List String :=
  (firstDedup ((hpa.map fun e => e.2.map Prod.fst).flatten)).mergeSort (fun a b => a ≤ b)

/-- A row of the first loop (lines 434-445): replica cells from the
snapshot's autoscalers, latency cells from the co-timestamped probes. -/
def hpaRow (allNames : List String) (probes : List Probe) (ts : String)
    (perHpa : List (String × HpaInfo)) : CsvRow :=
  let totals := (totalsAtTs probes ts).mergeSort (fun a b => a ≤ b)
  { timestamp := ts
    reps := allNames.map fun n =>
      match perHpa.lookup n with
      | none => (n, "", "")
      | some i => (n, replicaCell i.desired, replicaCell i.current)
    p95 := percentile totals 95
    p99 := percentile totals 99 }

/-- A row of the second loop (lines 448-459): a probe-only timestamp, all
replica cells empty. -/
def probeOnlyRow (allNames : List String) (probes : List Probe) (ts : String) : CsvRow :=
  let totals := (totalsAtTs probes ts).mergeSort (fun a b => a ≤ b)
  { timestamp := ts
    reps := allNames.map fun n => (n, "", "")
    p95 := percentile totals 95
    p99 := percentile totals 99 }

/-- The rows of the first loop (lines 434-445), one per autoscaler
snapshot. -/
def hpaRows (hpa : List (String × List (String × HpaInfo))) (probes : List Probe) :
    List CsvRow :=
  hpa.map fun e => hpaRow (allHpaNames hpa) probes e.1 e.2

/-- The rows of the second loop (lines 448-459), one per `by_ts` key missing
from the autoscaler timestamps. -/
def probeOnlyRows (hpa : List (String × List (String × HpaInfo))) (probes : List Probe) :
    List CsvRow :=
  (probeTsKeys probes).filterMap fun ts =>
    if ts ∈ hpa.map Prod.fst then none
    else some (probeOnlyRow (allHpaNames hpa) probes ts)

/-- The function `build_latency_vs_replicas` (lines 399-467), as the list of
CSV rows it writes.  `probesFile` models the probe file
`service-to-service-latency.jsonl`: `none` when the file is missing,
`some probes` when it exists and parses to those records.  Line 405's guard
`if not p.exists() or not hpa_snapshots: return None` makes the result `none`
when the probe file is missing or no autoscaler snapshot was loaded;
otherwise there is one row per autoscaler snapshot plus one row per `by_ts`
key missing from the autoscaler timestamps, sorted by timestamp (line 460). -/
def buildRows (hpa : List (String × List (String × HpaInfo)))
    (probesFile : Option (List Probe)) : Option (List CsvRow) :=
  match probesFile with
  | none => none
  | some probes =>
    if hpa.isEmpty then none
    else some ((hpaRows hpa probes ++ probeOnlyRows hpa probes).mergeSort
      (fun a b => a.timestamp ≤ b.timestamp))

/-! ## Concrete records used by the counterexamples and witnesses -/

/-- A service with one pod on node `A` in each of three snapshots. -/
def uniformSnaps : List Snapshot :=
  [⟨"t1", [⟨some "web-1", some "web", some "A"⟩]⟩,
   ⟨"t2", [⟨some "web-1", some "web", some "A"⟩]⟩,
   ⟨"t3", [⟨some "web-1", some "web", some "A"⟩]⟩]

/-- The same service present in only two of the three snapshots. -/
def sparseSnaps : List Snapshot :=
  [⟨"t1", [⟨some "web-1", some "web", some "A"⟩]⟩,
   ⟨"t2", [⟨some "web-1", some "web", some "A"⟩]⟩,
   ⟨"t3", []⟩]

/-- A probe whose `ttfb` exceeds its `connect` (queueing 15 ms). -/
def goodProbe : Probe :=
  ⟨"t0", "pod-a-1", "nodeA", "svc", none, some 10, some 25, some 100, none⟩

/-- A probe whose `connect` exceeds its `ttfb` (queueing −10 ms). -/
def negProbe : Probe :=
  ⟨"t0", "pod-a-1", "nodeA", "svc", none, some 30, some 20, some 100, none⟩

/-- A probe whose source node is the `"unknown"` sentinel, aimed at a
service with a known node set. -/
def sentinelProbe : Probe :=
  ⟨"t0", "pod-a-1", "unknown", "svc", none, none, none, none, none⟩

/-- A probe aimed at a service with no known node set. -/
def emptySvcProbe : Probe :=
  ⟨"t0", "pod-a-1", "nodeA", "other", none, none, none, none, none⟩

/-- The endpoint map used by the locality counterexamples. -/
def svcNodes : List (String × List String) := [("svc", ["A"])]

/-- A probe at timestamp `"t1"` carrying a `total` metric. -/
def tProbe : Probe := ⟨"t1", "p", "n", "svc", none, none, none, some 5, none⟩

/-- A probe at timestamp `"t9"` carrying no `total` metric. -/
def noTotalProbe : Probe := ⟨"t9", "p", "n", "svc", none, some 1, none, none, none⟩

/-- A single autoscaler snapshot at timestamp `"t0"`. -/
def oneHpa : List (String × List (String × HpaInfo)) :=
  [("t0", [("web", ⟨some 1, some 1⟩)])]

/-- Two autoscaler snapshots sharing the timestamp `"t0"`. -/
def twoHpa : List (String × List (String × HpaInfo)) :=
  [("t0", [("web", ⟨some 1, some 1⟩)]), ("t0", [("web", ⟨some 2, some 2⟩)])]

/-! ## Percentile estimator lemmas -/

theorem ceil_neg_floor (a : ℚ) : ⌈a⌉ = -⌊-a⌋ := by
  rw [Int.floor_neg, neg_neg]

theorem pyGet_of_nonneg (xs : List ℚ) (i : ℤ) (h0 : 0 ≤ i) (hlt : i.toNat < xs.length) :
    pyGet xs i = some (xs.getD i.toNat 0) := by
  simp only [pyGet]
  rw [if_neg (not_lt.mpr h0), if_pos h0, List.getD_eq_getElem?_getD,
    List.getElem?_eq_getElem hlt]
  rfl

theorem percentilePos_nonneg (n : ℕ) (q : ℚ) (hn : 1 ≤ n) (hq0 : 0 ≤ q) :
    0 ≤ percentilePos n q := by
  unfold percentilePos
  have h1 : (0 : ℚ) ≤ (n : ℚ) - 1 := by
    have : (1 : ℚ) ≤ (n : ℚ) := by exact_mod_cast hn
    linarith
  positivity

theorem percentilePos_le (n : ℕ) (q : ℚ) (hn : 1 ≤ n) (hq0 : 0 ≤ q) (hq1 : q ≤ 100) :
    percentilePos n q ≤ (n : ℚ) - 1 := by
  unfold percentilePos
  have h1 : (0 : ℚ) ≤ (n : ℚ) - 1 := by
    have : (1 : ℚ) ≤ (n : ℚ) := by exact_mod_cast hn
    linarith
  have h2 : q / 100 ≤ 1 := by linarith
  calc ((n : ℚ) - 1) * (q / 100) ≤ ((n : ℚ) - 1) * 1 := by
        exact mul_le_mul_of_nonneg_left h2 h1
    _ = (n : ℚ) - 1 := mul_one _

theorem floor_percentilePos_nonneg (n : ℕ) (q : ℚ) (hn : 1 ≤ n) (hq0 : 0 ≤ q) :
    0 ≤ ⌊percentilePos n q⌋ :=
  Int.le_floor.mpr (by exact_mod_cast percentilePos_nonneg n q hn hq0)

theorem ceil_percentilePos_le (n : ℕ) (q : ℚ) (hn : 1 ≤ n) (hq0 : 0 ≤ q) (hq1 : q ≤ 100) :
    ⌈percentilePos n q⌉ ≤ (n : ℤ) - 1 := by
  refine Int.ceil_le.mpr ?_
  push_cast
  exact percentilePos_le n q hn hq0 hq1

theorem percentile_singleton (x : ℚ) (q : ℚ) : percentile [x] q = some x := by
  simp [percentile, pyGet]

/-- The interpolation branch of `percentile`, written with natural-number
indices: for `2 ≤ n`, `0 ≤ q ≤ 100`, the function returns `values[lo]` when
`lo = hi` and the convex combination otherwise. -/
theorem percentile_interp (values : List ℚ) (q : ℚ)
    (hq0 : 0 ≤ q) (hq1 : q ≤ 100) (h2 : 2 ≤ values.length)
    (pos : ℚ) (hpos : pos = percentilePos values.length q)
    (lo hi : ℕ) (hlo : lo = (⌊pos⌋).toNat) (hhi : hi = (⌈pos⌉).toNat) :
    percentile values q =
      some (if lo = hi then values.getD lo 0
            else values.getD lo 0 * (1 - (pos - (lo : ℚ)))
               + values.getD hi 0 * (pos - (lo : ℚ))) := by
  have hn1 : 1 ≤ values.length := by omega
  have hfl0 : 0 ≤ ⌊pos⌋ := hpos ▸ floor_percentilePos_nonneg _ q hn1 hq0
  have hflc : ⌊pos⌋ ≤ ⌈pos⌉ := Int.floor_le_ceil pos
  have hcl : ⌈pos⌉ ≤ (values.length : ℤ) - 1 :=
    hpos ▸ ceil_percentilePos_le _ q hn1 hq0 hq1
  have hlolt : (⌊pos⌋).toNat < values.length := by omega
  have hhilt : (⌈pos⌉).toNat < values.length := by omega
  have hcastlo : ((⌊pos⌋).toNat : ℚ) = ((⌊pos⌋ : ℤ) : ℚ) := by
    exact_mod_cast congrArg (Int.cast : ℤ → ℚ) (Int.toNat_of_nonneg hfl0)
  unfold percentile
  rw [if_neg (by omega), if_neg (by omega)]
  simp only [← hpos]
  by_cases h : ⌊pos⌋ = ⌈pos⌉
  · have hnat : lo = hi := by rw [hlo, hhi, h]
    rw [if_pos h, if_pos hnat, pyGet_of_nonneg values ⌊pos⌋ hfl0 hlolt, hlo]
  · have hnat : lo ≠ hi := by
      rw [hlo, hhi]
      omega
    rw [if_neg h, if_neg hnat, pyGet_of_nonneg values ⌊pos⌋ hfl0 hlolt,
      pyGet_of_nonneg values ⌈pos⌉ (le_trans hfl0 hflc) hhilt]
    rw [hlo, hcastlo, hhi]

/-- Claim C1: `percentile` returns `None` on `[]`, the sole element on a
singleton, and for `n ≥ 2` the linear interpolation at
`pos = (n-1)·q/100` with `lo = ⌊pos⌋`, `hi = ⌈pos⌉`,
`frac = pos - lo`; in particular `percentile [1,2,3,4] 50 = 2.5` and
`percentile [5] q = 5`. -/
theorem percentile_contract (values : List ℚ) (q : ℚ) (x : ℚ)
    (hq0 : 0 ≤ q) (hq1 : q ≤ 100) (h2 : 2 ≤ values.length)
    (pos : ℚ) (hpos : pos = percentilePos values.length q)
    (lo hi : ℕ) (hlo : lo = (⌊pos⌋).toNat) (hhi : hi = (⌈pos⌉).toNat) :
    percentile [] q = none ∧
    percentile [x] q = some x ∧
    percentile values q =
      some (if lo = hi then values.getD lo 0
            else values.getD lo 0 * (1 - (pos - (lo : ℚ)))
               + values.getD hi 0 * (pos - (lo : ℚ))) ∧
    percentile [1, 2, 3, 4] 50 = some (5 / 2) ∧
    percentile [5] q = some 5 := by
  refine ⟨by simp [percentile], percentile_singleton x q,
    percentile_interp values q hq0 hq1 h2 pos hpos lo hi hlo hhi, ?_,
    percentile_singleton 5 q⟩
  norm_num [percentile, percentilePos, pyGet, ceil_neg_floor]
  norm_num [show Int.toNat 2 = 2 from rfl]

/-- Witness for `percentile_contract` at `values = [10, 20]`, `q = 50`,
`x = 7`: `pos = 1/2`, `lo = 0`, `hi = 1`, result `15`. -/
theorem percentile_contract_witness :
    ((0 : ℚ) ≤ 50 ∧ (50 : ℚ) ≤ 100 ∧ 2 ≤ ([(10 : ℚ), 20]).length ∧
      (1 / 2 : ℚ) = percentilePos ([(10 : ℚ), 20]).length 50 ∧
      0 = (⌊(1 / 2 : ℚ)⌋).toNat ∧ 1 = (⌈(1 / 2 : ℚ)⌉).toNat) ∧
    (percentile [] 50 = none ∧
     percentile [(7 : ℚ)] 50 = some 7 ∧
     percentile [(10 : ℚ), 20] 50 =
       some (if 0 = 1 then ([(10 : ℚ), 20]).getD 0 0
             else ([(10 : ℚ), 20]).getD 0 0 * (1 - ((1 / 2 : ℚ) - ((0 : ℕ) : ℚ)))
                + ([(10 : ℚ), 20]).getD 1 0 * ((1 / 2 : ℚ) - ((0 : ℕ) : ℚ))) ∧
     percentile [1, 2, 3, 4] 50 = some (5 / 2) ∧
     percentile [(5 : ℚ)] 50 = some 5) := by
  have h1 : (1 / 2 : ℚ) = percentilePos ([(10 : ℚ), 20]).length 50 := by
    norm_num [percentilePos]
  have h2 : 0 = (⌊(1 / 2 : ℚ)⌋).toNat := by norm_num
  have h3 : 1 = (⌈(1 / 2 : ℚ)⌉).toNat := by norm_num [ceil_neg_floor]
  exact ⟨⟨by norm_num, by norm_num, by simp, h1, h2, h3⟩,
    percentile_contract [(10 : ℚ), 20] 50 7 (by norm_num) (by norm_num) (by simp)
      (1 / 2) h1 0 1 h2 h3⟩

theorem sorted_head_min (v : List ℚ) (hne : v ≠ []) (hs : v.Sorted (· ≤ ·)) :
    ∀ y ∈ v, v.head hne ≤ y := by
  match v with
  | a :: t =>
    intro y hy
    rw [List.head_cons]
    rcases List.mem_cons.mp hy with h | h
    · rw [h]
    · exact (List.sorted_cons.mp hs).1 y h

theorem sorted_getLast_max :
    ∀ (v : List ℚ) (hne : v ≠ []), v.Sorted (· ≤ ·) → ∀ y ∈ v, y ≤ v.getLast hne
  | [], hne, _ => absurd rfl hne
  | [a], _, _ => by simp
  | a :: b :: t, _, hs => by
    intro y hy
    have h' := List.sorted_cons.mp hs
    have ih := sorted_getLast_max (b :: t) (by simp) h'.2
    rw [List.getLast_cons (by simp)]
    rcases List.mem_cons.mp hy with h | h
    · exact h ▸ h'.1 _ (List.getLast_mem (by simp))
    · exact ih y h

theorem head_eq_getD (v : List ℚ) (hne : v ≠ []) : v.getD 0 0 = v.head hne := by
  match v with
  | a :: t => rfl

theorem getLast_eq_getD (v : List ℚ) (hne : v ≠ []) :
    v.getD (v.length - 1) 0 = v.getLast hne := by
  have hlt : v.length - 1 < v.length := by
    have := List.length_pos.mpr hne
    omega
  rw [List.getD_eq_getElem?_getD, List.getElem?_eq_getElem hlt,
    List.getLast_eq_getElem]
  rfl

/-- Evaluation of `percentile v 0`: the first element. -/
theorem percentile_zero (v : List ℚ) (hne : v ≠ []) :
    percentile v 0 = some (v.head hne) := by
  have hn1 : 1 ≤ v.length := List.length_pos.mpr hne
  by_cases h1 : v.length = 1
  · unfold percentile
    rw [if_neg (by omega), if_pos h1,
      pyGet_of_nonneg v 0 le_rfl (by simp; omega)]
    rw [show (0 : ℤ).toNat = 0 from rfl, head_eq_getD v hne]
  · have h2 : 2 ≤ v.length := by omega
    have hpos : (0 : ℚ) = percentilePos v.length 0 := by
      simp [percentilePos]
    have hlo : 0 = (⌊(0 : ℚ)⌋).toNat := by simp
    have hhi : 0 = (⌈(0 : ℚ)⌉).toNat := by simp
    rw [percentile_interp v 0 le_rfl (by norm_num) h2 0 hpos 0 0 hlo hhi]
    rw [if_pos rfl, head_eq_getD v hne]

/-- Evaluation of `percentile v 100`: the last element. -/
theorem percentile_hundred (v : List ℚ) (hne : v ≠ []) :
    percentile v 100 = some (v.getLast hne) := by
  have hn1 : 1 ≤ v.length := List.length_pos.mpr hne
  by_cases h1 : v.length = 1
  · unfold percentile
    rw [if_neg (by omega), if_pos h1,
      pyGet_of_nonneg v 0 le_rfl (by simp; omega)]
    rw [show (0 : ℤ).toNat = 0 from rfl]
    have : v.length - 1 = 0 := by omega
    rw [← this, getLast_eq_getD v hne]
  · have h2 : 2 ≤ v.length := by omega
    have hpos : (((v.length : ℤ) - 1 : ℤ) : ℚ) = percentilePos v.length 100 := by
      unfold percentilePos
      push_cast
      ring
    have hlo : v.length - 1 = (⌊(((v.length : ℤ) - 1 : ℤ) : ℚ)⌋).toNat := by
      rw [Int.floor_intCast]
      omega
    have hhi : v.length - 1 = (⌈(((v.length : ℤ) - 1 : ℤ) : ℚ)⌉).toNat := by
      rw [Int.ceil_intCast]
      omega
    rw [percentile_interp v 100 (by norm_num) le_rfl h2 _ hpos _ _ hlo hhi]
    rw [if_pos rfl, getLast_eq_getD v hne]

/-- Claim C8: on a non-empty ascending-sorted sample, `percentile(v, 0)` is the
minimum of `v` and `percentile(v, 100)` is the maximum of `v` (the function
does not sort; ascending order is the caller's precondition). -/
theorem percentile_extremes (v : List ℚ) (hne : v ≠ []) (hs : v.Sorted (· ≤ ·)) :
    ∃ a b, percentile v 0 = some a ∧ a ∈ v ∧ (∀ y ∈ v, a ≤ y) ∧
           percentile v 100 = some b ∧ b ∈ v ∧ (∀ y ∈ v, y ≤ b) :=
  ⟨v.head hne, v.getLast hne, percentile_zero v hne, List.head_mem hne,
    sorted_head_min v hne hs, percentile_hundred v hne, List.getLast_mem hne,
    sorted_getLast_max v hne hs⟩

/-- Witness for `percentile_extremes` at `v = [1, 2]`. -/
theorem percentile_extremes_witness :
    (([(1 : ℚ), 2] : List ℚ) ≠ [] ∧ ([(1 : ℚ), 2] : List ℚ).Sorted (· ≤ ·)) ∧
    (∃ a b, percentile [(1 : ℚ), 2] 0 = some a ∧ a ∈ [(1 : ℚ), 2] ∧
      (∀ y ∈ [(1 : ℚ), 2], a ≤ y) ∧
      percentile [(1 : ℚ), 2] 100 = some b ∧ b ∈ [(1 : ℚ), 2] ∧
      (∀ y ∈ [(1 : ℚ), 2], y ≤ b)) :=
  ⟨⟨by simp, by norm_num [List.sorted_cons]⟩,
    percentile_extremes [(1 : ℚ), 2] (by simp) (by norm_num [List.sorted_cons])⟩

/-- Claim C9: for non-empty input and `0 ≤ q ≤ 100` the computed index positions
satisfy `0 ≤ ⌊pos⌋ ≤ ⌈pos⌉ ≤ n - 1`, both accesses are in bounds, and
`percentile` returns a value (is total under that precondition). -/
theorem percentile_index_bounds (values : List ℚ) (q : ℚ)
    (hne : values ≠ []) (hq0 : 0 ≤ q) (hq1 : q ≤ 100) :
    0 ≤ ⌊percentilePos values.length q⌋ ∧
    ⌊percentilePos values.length q⌋ ≤ ⌈percentilePos values.length q⌉ ∧
    ⌈percentilePos values.length q⌉ ≤ (values.length : ℤ) - 1 ∧
    (percentile values q).isSome = true := by
  have hn1 : 1 ≤ values.length := List.length_pos.mpr hne
  refine ⟨floor_percentilePos_nonneg _ q hn1 hq0, Int.floor_le_ceil _,
    ceil_percentilePos_le _ q hn1 hq0 hq1, ?_⟩
  by_cases h1 : values.length = 1
  · unfold percentile
    rw [if_neg (by omega), if_pos h1,
      pyGet_of_nonneg values 0 le_rfl (by simp; omega)]
    rfl
  · rw [percentile_interp values q hq0 hq1 (by omega) _ rfl _ _ rfl rfl]
    rfl

/-- Witness for `percentile_index_bounds` at `values = [1, 2, 3]`, `q = 95`. -/
theorem percentile_index_bounds_witness :
    (([(1 : ℚ), 2, 3] : List ℚ) ≠ [] ∧ (0 : ℚ) ≤ 95 ∧ (95 : ℚ) ≤ 100) ∧
    (0 ≤ ⌊percentilePos ([(1 : ℚ), 2, 3]).length 95⌋ ∧
     ⌊percentilePos ([(1 : ℚ), 2, 3]).length 95⌋ ≤
       ⌈percentilePos ([(1 : ℚ), 2, 3]).length 95⌉ ∧
     ⌈percentilePos ([(1 : ℚ), 2, 3]).length 95⌉ ≤ (([(1 : ℚ), 2, 3]).length : ℤ) - 1 ∧
     (percentile [(1 : ℚ), 2, 3] 95).isSome = true) :=
  ⟨⟨by simp, by norm_num, by norm_num⟩,
    percentile_index_bounds [(1 : ℚ), 2, 3] 95 (by simp) (by norm_num) (by norm_num)⟩

/-! ## Placement tracker lemmas -/

theorem mem_firstDedup (l : List String) (x : String) : x ∈ firstDedup l ↔ x ∈ l := by
  induction l with
  | nil => simp [firstDedup]
  | cons a t ih =>
    by_cases hx : x = a
    · simp [firstDedup, hx]
    · simp [firstDedup, hx, List.mem_filter, ih]

theorem firstDedup_nodup (l : List String) : (firstDedup l).Nodup := by
  induction l with
  | nil => simp [firstDedup]
  | cons a t ih =>
    refine List.nodup_cons.mpr ⟨?_, List.Nodup.filter _ ih⟩
    intro hmem
    have := (List.mem_filter.mp hmem).2
    simp at this

theorem lookup_filterMap_if (l : List String) (f : String → List HistEntry)
    (p : String → Bool) (name : String) :
    (l.filterMap fun n => if p n then some (n, f n) else none).lookup name =
      if name ∈ l ∧ p name then some (f name) else none := by
  induction l with
  | nil => simp
  | cons a t ih =>
    by_cases hp : p a
    · by_cases hx : name = a
      · subst hx
        simp [List.filterMap_cons, hp, List.lookup_cons]
      · have hba : (name == a) = false := beq_false_of_ne hx
        simp [List.filterMap_cons, hp, List.lookup_cons, hba, ih, hx]
    · by_cases hx : name = a
      · subst hx
        simp [List.filterMap_cons, hp, ih]
      · simp [List.filterMap_cons, hp, ih, hx]

theorem podEntries_eq_nil_iff (snaps : List Snapshot) (name : String) :
    podEntries snaps name = [] ↔
      ∀ s ∈ snaps, ∀ p ∈ s.items, ¬podName p = name := by
  simp [podEntries, List.flatMap_eq_nil_iff, List.map_eq_nil_iff,
    List.filter_eq_nil_iff]

theorem mem_allPodNames_iff (snaps : List Snapshot) (name : String) :
    name ∈ allPodNames snaps ↔ ∃ s ∈ snaps, ∃ p ∈ s.items, podName p = name := by
  simp only [allPodNames, mem_firstDedup, List.mem_flatMap, List.mem_map]

/-- The association built by `pod_movements`: `name` maps to its full entry
list exactly when it appears and has more than one distinct node. -/
theorem podMovements_lookup (snaps : List Snapshot) (name : String) :
    (podMovements snaps).lookup name =
      if name ∈ allPodNames snaps ∧ 1 < (distinctNodes snaps name).length then
        some (podEntries snaps name)
      else none := by
  have h := lookup_filterMap_if (allPodNames snaps) (podEntries snaps)
    (fun n => decide (1 < (distinctNodes snaps n).length)) name
  simp only [decide_eq_true_eq] at h
  unfold podMovements
  rw [← h]

/-- A pod with two or more distinct nodes occurs in some snapshot. -/
theorem moved_mem_allPodNames (snaps : List Snapshot) (name : String)
    (h : 1 < (distinctNodes snaps name).length) : name ∈ allPodNames snaps := by
  rw [mem_allPodNames_iff]
  by_contra hcon
  push_neg at hcon
  have hnil : podEntries snaps name = [] :=
    (podEntries_eq_nil_iff snaps name).mpr fun s hs p hp => hcon s hs p hp
  rw [distinctNodes, hnil] at h
  simp at h

/-- Claim C6: a pod appears in the relocation report, carrying its full location
timeline, exactly when its history holds at least two distinct node values;
concretely, with `p1` on node `A` at `t1` and node `B` at `t2` `p1` is
reported with both entries, while `p2` on node `A` both times is absent. -/
theorem podMovements_spec (snaps : List Snapshot) (name : String) :
    ((podMovements snaps).lookup name = some (podEntries snaps name) ↔
      2 ≤ (distinctNodes snaps name).length) ∧
    (podMovements
        [⟨"t1", [⟨some "p1", some "svc", some "A"⟩, ⟨some "p2", some "svc", some "A"⟩]⟩,
         ⟨"t2", [⟨some "p1", some "svc", some "B"⟩, ⟨some "p2", some "svc", some "A"⟩]⟩]).lookup
        "p1" =
      some [⟨"t1", "A", "svc"⟩, ⟨"t2", "B", "svc"⟩] ∧
    (podMovements
        [⟨"t1", [⟨some "p1", some "svc", some "A"⟩, ⟨some "p2", some "svc", some "A"⟩]⟩,
         ⟨"t2", [⟨some "p1", some "svc", some "B"⟩, ⟨some "p2", some "svc", some "A"⟩]⟩]).lookup
        "p2" = none := by
  refine ⟨?_, by decide, by decide⟩
  rw [podMovements_lookup]
  constructor
  · intro h
    by_cases hc : name ∈ allPodNames snaps ∧ 1 < (distinctNodes snaps name).length
    · omega
    · rw [if_neg hc] at h
      exact absurd h (by simp)
  · intro h
    rw [if_pos ⟨moved_mem_allPodNames snaps name (by omega), by omega⟩]

/-- Claim C7: `summarize_pod_placement` on zero snapshots returns the summary
with no latest timestamp, empty node map, empty spreads and zero movements
(and in this embedding is total, so it never raises). -/
theorem placement_empty :
    summarizePodPlacement [] =
      { latest_timestamp := none
        latest_node_to_pods := []
        pod_movements := []
        service_node_spread := []
        service_node_spread_avg := []
        snapshot_count := 0 } := rfl

/-- Claim C10: a missing node is recorded in the pod history as the sentinel
`"unknown"`, and the sentinel counts as a distinct node: a pod seen on a real
node `a ≠ "unknown"` in one snapshot and with a missing node in another is
reported as moved. -/
theorem unknown_node_counts_as_move (t1 t2 n app1 app2 a : String)
    (ha : a ≠ "unknown") :
    podEntries [⟨t1, [⟨some n, some app1, some a⟩]⟩, ⟨t2, [⟨some n, some app2, none⟩]⟩] n =
      [⟨t1, a, app1⟩, ⟨t2, "unknown", app2⟩] ∧
    (podMovements
        [⟨t1, [⟨some n, some app1, some a⟩]⟩, ⟨t2, [⟨some n, some app2, none⟩]⟩]).lookup n =
      some [⟨t1, a, app1⟩, ⟨t2, "unknown", app2⟩] := by
  have hent : podEntries
      [⟨t1, [⟨some n, some app1, some a⟩]⟩, ⟨t2, [⟨some n, some app2, none⟩]⟩] n =
      [⟨t1, a, app1⟩, ⟨t2, "unknown", app2⟩] := by
    simp [podEntries, podName, podNode, podApp]
  refine ⟨hent, ?_⟩
  rw [podMovements_lookup]
  have hdist : distinctNodes
      [⟨t1, [⟨some n, some app1, some a⟩]⟩, ⟨t2, [⟨some n, some app2, none⟩]⟩] n =
      [a, "unknown"] := by
    rw [distinctNodes, hent]
    simp only [List.map_cons, List.map_nil]
    rw [List.dedup_cons_of_not_mem (by simp [ha]), List.dedup_cons_of_not_mem (by simp),
      List.dedup_nil]
  have hmem := moved_mem_allPodNames _ n (by rw [hdist]; simp)
  rw [if_pos ⟨hmem, by rw [hdist]; simp⟩, hent]

/-- Witness for `unknown_node_counts_as_move` at
`t1 = "t1"`, `t2 = "t2"`, `n = "p1"`, `a = "A"`. -/
theorem unknown_node_counts_as_move_witness :
    ("A" ≠ "unknown") ∧
    (podEntries [⟨"t1", [⟨some "p1", some "s", some "A"⟩]⟩,
        ⟨"t2", [⟨some "p1", some "s", none⟩]⟩] "p1" =
      [⟨"t1", "A", "s"⟩, ⟨"t2", "unknown", "s"⟩] ∧
     (podMovements [⟨"t1", [⟨some "p1", some "s", some "A"⟩]⟩,
        ⟨"t2", [⟨some "p1", some "s", none⟩]⟩]).lookup "p1" =
      some [⟨"t1", "A", "s"⟩, ⟨"t2", "unknown", "s"⟩]) :=
  ⟨by decide, unknown_node_counts_as_move "t1" "t2" "p1" "s" "s" "A" (by decide)⟩

/-! ## Time-averaged service spread lemmas -/

theorem sum_const_list (l : List ℕ) (k : ℕ) (h : ∀ x ∈ l, x = k) :
    l.sum = l.length * k := by
  induction l with
  | nil => simp
  | cons a t ih =>
    have ha : a = k := h a (List.mem_cons_self a t)
    have ht := ih fun x hx => h x (List.mem_cons_of_mem a hx)
    simp only [List.sum_cons, List.length_cons, ha, ht]
    ring

theorem sum_two_valued (l : List ℕ) (k : ℕ) (h : ∀ x ∈ l, x = k ∨ x = 0) :
    l.sum = k * (l.filter fun x => x ≠ 0).length := by
  induction l with
  | nil => simp
  | cons a t ih =>
    have ht := ih fun x hx => h x (List.mem_cons_of_mem a hx)
    by_cases ha0 : a = 0
    · subst ha0
      simp [List.filter_cons, ht]
    · have ha : a = k := (h a (List.mem_cons_self a t)).resolve_right ha0
      simp only [List.sum_cons, List.filter_cons, ht]
      rw [if_pos (by simpa using ha0)]
      simp only [List.length_cons, ha]
      ring

theorem round2_natCast (k : ℕ) : round2 ((k : ℚ)) = (k : ℚ) := by
  have h : ((k : ℚ) * 100) = (((k * 100 : ℕ) : ℤ) : ℚ) := by push_cast; ring
  rw [round2, h, round_intCast]
  push_cast
  ring

/-- Claim C4: the time-averaged spread divides the accumulated count by the total
number of snapshots: a service with exactly `k` pods on node `nd` in every
snapshot averages `k` (also after presentation rounding); with `k` pods in
only `m` of the snapshots and none otherwise it averages exactly `k·m/N`;
the emitted figure is the 2-decimal rounding of the exact rational average. -/
theorem spreadAvg_divides_by_total (snaps : List Snapshot) (svc nd : String)
    (k m : ℕ) (hk : 0 < k) (hN : 0 < snaps.length) :
    ((∀ s ∈ snaps, countIn s svc nd = k) →
      avgPodCountExact snaps svc nd = (k : ℚ) ∧
      avgPodCount snaps svc nd = (k : ℚ)) ∧
    (((snaps.filter fun s => countIn s svc nd ≠ 0).length = m ∧
        ∀ s ∈ snaps, countIn s svc nd = k ∨ countIn s svc nd = 0) →
      avgPodCountExact snaps svc nd = (k : ℚ) * (m : ℚ) / (snaps.length : ℚ)) ∧
    avgPodCount snaps svc nd = round2 (avgPodCountExact snaps svc nd) := by
  have hNQ : ((snaps.length : ℚ)) ≠ 0 := by
    have : snaps.length ≠ 0 := Nat.pos_iff_ne_zero.mp hN
    exact_mod_cast this
  refine ⟨?_, ?_, rfl⟩
  · intro hall
    have hsum : sumPodCount snaps svc nd = snaps.length * k := by
      rw [sumPodCount, sum_const_list _ k (by
        intro x hx
        obtain ⟨s, hs, rfl⟩ := List.mem_map.mp hx
        exact hall s hs)]
      simp
    have hexact : avgPodCountExact snaps svc nd = (k : ℚ) := by
      rw [avgPodCountExact, hsum]
      push_cast
      field_simp
    exact ⟨hexact, by rw [avgPodCount, hexact, round2_natCast]⟩
  · rintro ⟨hm, hall⟩
    have hsum : sumPodCount snaps svc nd = k * m := by
      rw [sumPodCount, sum_two_valued _ k (by
        intro x hx
        obtain ⟨s, hs, rfl⟩ := List.mem_map.mp hx
        exact hall s hs)]
      congr 1
      rw [← hm, List.filter_map]
      simp [Function.comp_def]
    rw [avgPodCountExact, hsum]
    push_cast
    ring

/-- Witness for `spreadAvg_divides_by_total` with `k = 1`, `N = 3`:
present in all three snapshots averages `1`; present in `m = 2` of them
averages `1·2/3`. -/
theorem spreadAvg_divides_by_total_witness :
    (0 < 1 ∧ 0 < uniformSnaps.length ∧ 0 < sparseSnaps.length) ∧
    (avgPodCountExact uniformSnaps "web" "A" = ((1 : ℕ) : ℚ) ∧
     avgPodCount uniformSnaps "web" "A" = ((1 : ℕ) : ℚ)) ∧
    avgPodCountExact sparseSnaps "web" "A" =
      ((1 : ℕ) : ℚ) * ((2 : ℕ) : ℚ) / (sparseSnaps.length : ℚ) := by
  refine ⟨⟨Nat.one_pos, by decide, by decide⟩, ?_, ?_⟩
  · exact (spreadAvg_divides_by_total uniformSnaps "web" "A" 1 0 Nat.one_pos
      (by decide)).1 (by decide)
  · exact ((spreadAvg_divides_by_total sparseSnaps "web" "A" 1 2 Nat.one_pos
      (by decide)).2).1 ⟨by decide, by decide⟩

/-! ## Queueing decomposition lemmas -/

/-- Claim C2 counterexample: a probe with `connect = 30`, `ttfb = 20` contributes
`−10` to the per-path queueing pool of `load_service_to_service`; the
negative sample is not excluded. -/
theorem queueing_negative_included :
    queueingList [negProbe] (probePath negProbe) = [-10] ∧
    queueingList [negProbe] (probePath negProbe) ≠ [] := by
  have h : queueingList [negProbe] (probePath negProbe) = [-10] := by
    simp [queueingList, ttfbList, connectList, pathProbes, negProbe]
    norm_num
  exact ⟨h, by rw [h]; simp⟩

theorem zipWith_sub_filterMap (l : List Probe)
    (h : ∀ r ∈ l, r.connect.isSome ∧ r.ttfb.isSome) :
    List.zipWith (fun t c => t - c) (l.filterMap (·.ttfb)) (l.filterMap (·.connect)) =
      l.filterMap pairQueueing := by
  induction l with
  | nil => simp
  | cons r t ih =>
    obtain ⟨hc, ht⟩ := h r (List.mem_cons_self r t)
    obtain ⟨c, hc⟩ := Option.isSome_iff_exists.mp hc
    obtain ⟨tt, ht⟩ := Option.isSome_iff_exists.mp ht
    have iht := ih fun x hx => h x (List.mem_cons_of_mem r hx)
    simp only [List.filterMap_cons, hc, ht, pairQueueing, List.zipWith_cons_cons, iht]

/-- Claim C2 amended: the per-path queueing pool zips the collected ttfb list
positionally against the collected connect list with value `ttfb − connect`
and no sign filtering — when every probe on the path carries both metrics,
each probe contributes exactly its own `ttfb − connect`, including negative
values (connect=10, ttfb=25 contributes 15; connect=30, ttfb=20 contributes
−10).  The both-present / drop-negative rule holds instead in the
per-timestamp queueing pool of `plot_queueing_vs_rtt`
(06-generate-graphs.py), which also requires `connect ≥ 0`. -/
theorem queueing_pools (probes : List Probe) (path : String)
    (recs : List Probe) (ts : String)
    (hall : ∀ r ∈ probes, probePath r = path → r.connect.isSome ∧ r.ttfb.isSome) :
    queueingList probes path = (pathProbes probes path).filterMap pairQueueing ∧
    (∀ x ∈ queueingByTs recs ts, 0 ≤ x) ∧
    pairQueueing goodProbe = some 15 ∧
    pairQueueing negProbe = some (-10) ∧
    queueingByTs [goodProbe] "t0" = [15] ∧
    queueingByTs [negProbe] "t0" = [] := by
  refine ⟨?_, ?_, ?_, ?_, ?_, ?_⟩
  · rw [queueingList, ttfbList, connectList]
    exact zipWith_sub_filterMap (pathProbes probes path) fun r hr =>
      hall r (List.mem_filter.mp hr).1 (by
        have := (List.mem_filter.mp hr).2
        simpa using this)
  · intro x hx
    simp only [queueingByTs, List.mem_filterMap] at hx
    obtain ⟨r, hr, heq⟩ := hx
    by_cases hts : r.timestamp = ts
    · rw [if_pos hts] at heq
      cases hc : r.connect with
      | none => rw [hc] at heq; simp at heq
      | some c =>
        cases ht : r.ttfb with
        | none => rw [hc, ht] at heq; simp at heq
        | some t =>
          rw [hc, ht] at heq
          simp only at heq
          split_ifs at heq with h1 h2
          · rw [Option.some_inj] at heq
            rw [← heq]
            exact h2
    · rw [if_neg hts] at heq
      simp at heq
  · simp only [pairQueueing, goodProbe]
    norm_num
  · simp only [pairQueueing, negProbe]
    norm_num
  · simp only [queueingByTs, goodProbe, List.filterMap_cons, List.filterMap_nil]
    norm_num
  · simp only [queueingByTs, negProbe, List.filterMap_cons, List.filterMap_nil]
    norm_num

/-- Witness for `queueing_pools` at a one-probe path carrying both metrics. -/
theorem queueing_pools_witness :
    (∀ r ∈ [goodProbe], probePath r = probePath goodProbe →
      r.connect.isSome ∧ r.ttfb.isSome) ∧
    (queueingList [goodProbe] (probePath goodProbe) =
        (pathProbes [goodProbe] (probePath goodProbe)).filterMap pairQueueing ∧
     (∀ x ∈ queueingByTs [goodProbe] "t0", 0 ≤ x) ∧
     pairQueueing goodProbe = some 15 ∧
     pairQueueing negProbe = some (-10) ∧
     queueingByTs [goodProbe] "t0" = [15] ∧
     queueingByTs [negProbe] "t0" = []) :=
  ⟨by intro r hr _; simp only [List.mem_singleton] at hr; subst hr; exact ⟨rfl, rfl⟩,
    queueing_pools [goodProbe] (probePath goodProbe) [goodProbe] "t0"
      (by intro r hr _; simp only [List.mem_singleton] at hr; subst hr; exact ⟨rfl, rfl⟩)⟩

/-! ## Locality correlator lemmas -/

/-- Claim C3 counterexample: a probe whose source node is the sentinel
`"unknown"` but whose target service has a known node set is counted by the
`load_service_to_service` ratio (as cross-node), and a probe whose target
service has no known node set is still counted (as cross-node) by
`plot_cross_node_ratio` — neither is excluded. -/
theorem sentinel_probe_counted :
    allTotal07 [sentinelProbe] svcNodes = 1 ∧
    sameNodeTotal07 [sentinelProbe] svcNodes = 0 ∧
    crossNodeTotal07 [sentinelProbe] svcNodes = 1 ∧
    pairTotal [emptySvcProbe] (pairKey emptySvcProbe) = 1 ∧
    pairCross [emptySvcProbe] svcNodes (pairKey emptySvcProbe) = 1 := by
  refine ⟨by decide, by decide, by decide, ?_, ?_⟩
  · simp [pairTotal]
  · simp [pairCross, emptySvcProbe, lookupNodes, svcNodes, List.lookup]

theorem length_filter_and_not (l : List Probe) (p q : Probe → Bool) :
    (l.filter fun r => p r && q r).length + (l.filter fun r => p r && !(q r)).length =
      (l.filter p).length := by
  induction l with
  | nil => simp
  | cons a t ih =>
    simp only [List.filter_cons]
    cases hp : p a <;> cases hq : q a <;>
      simp [hp, hq] <;> omega

theorem cdf_partition (recs : List Probe) (s2n : List (String × List String)) :
    (cdfSamePool recs s2n).length + (cdfCrossPool recs s2n).length =
      (recs.filter fun r => r.total.isSome && r.source_node ≠ "unknown" &&
        lookupNodes s2n r.target_service ≠ []).length := by
  induction recs with
  | nil => simp [cdfSamePool, cdfCrossPool]
  | cons r t ih =>
    simp only [cdfSamePool, cdfCrossPool] at ih ⊢
    cases htot : r.total with
    | none => simpa [List.filterMap_cons, List.filter_cons, htot] using ih
    | some v =>
      by_cases hexc : r.source_node = "unknown" ∨ lookupNodes s2n r.target_service = []
      · rcases hexc with h | h
        · simpa [List.filterMap_cons, List.filter_cons, htot, h] using ih
        · simpa [List.filterMap_cons, List.filter_cons, htot, h] using ih
      · push_neg at hexc
        by_cases hmem : r.source_node ∈ lookupNodes s2n r.target_service
        · simp [List.filterMap_cons, List.filter_cons, htot, hexc.1, hexc.2, hmem] at ih ⊢
          omega
        · simp [List.filterMap_cons, List.filter_cons, htot, hexc.1, hexc.2, hmem] at ih ⊢
          omega

/-- Claim C3 amended: in `load_service_to_service` the ratio counts exactly the
probes whose target service has a non-empty known node set — including those
whose source node is the `"unknown"` sentinel — and splits them exactly into
same-node and cross-node; in `plot_cross_node_ratio` every probe of a pair is
counted, split into cross-node and source-in-known-set; the
sentinel/empty-set exclusions of the original claim hold in the CDF pools of
`plot_same_vs_cross_node_cdf`, where same + cross = classifiable. -/
theorem locality_partition (probes recs : List Probe)
    (s2n : List (String × List String)) (key : String)
    (hsrc : ∀ r ∈ probes, r.source_node ≠ "") :
    sameNodeTotal07 probes s2n + crossNodeTotal07 probes s2n = allTotal07 probes s2n ∧
    allTotal07 probes s2n =
      (probes.filter fun r => lookupNodes s2n r.target_service ≠ []).length ∧
    (cdfSamePool recs s2n).length + (cdfCrossPool recs s2n).length =
      (recs.filter fun r => r.total.isSome && r.source_node ≠ "unknown" &&
        lookupNodes s2n r.target_service ≠ []).length ∧
    pairTotal recs key =
      pairCross recs s2n key +
        (recs.filter fun r => pairKey r = key &&
          r.source_node ∈ lookupNodes s2n r.target_service).length := by
  refine ⟨?_, ?_, cdf_partition recs s2n, ?_⟩
  · have h := length_filter_and_not probes
      (fun r => r.source_node ≠ "" && lookupNodes s2n r.target_service ≠ [])
      (fun r => r.source_node ∈ lookupNodes s2n r.target_service)
    rw [sameNodeTotal07, crossNodeTotal07, allTotal07, ← h]
    congr 1
    exact congrArg List.length (List.filter_congr fun r _ => by simp [decide_not])
  · rw [allTotal07]
    congr 1
    refine List.filter_congr fun r hr => ?_
    simp [hsrc r hr]
  · have h := length_filter_and_not recs
      (fun r => pairKey r = key)
      (fun r => r.source_node ∈ lookupNodes s2n r.target_service)
    rw [pairTotal, pairCross, ← h]
    have hcross : (recs.filter fun r => pairKey r = key &&
        r.source_node ∉ lookupNodes s2n r.target_service) =
        (recs.filter fun r => pairKey r = key &&
          !(decide (r.source_node ∈ lookupNodes s2n r.target_service))) :=
      List.filter_congr fun r _ => by simp [decide_not]
    rw [hcross]
    omega

/-- Witness for `locality_partition` on one-probe inputs. -/
theorem locality_partition_witness :
    (∀ r ∈ [goodProbe], r.source_node ≠ "") ∧
    (sameNodeTotal07 [goodProbe] svcNodes + crossNodeTotal07 [goodProbe] svcNodes =
        allTotal07 [goodProbe] svcNodes ∧
     allTotal07 [goodProbe] svcNodes =
       (([goodProbe]).filter fun r => lookupNodes svcNodes r.target_service ≠ []).length ∧
     (cdfSamePool [sentinelProbe] svcNodes).length +
         (cdfCrossPool [sentinelProbe] svcNodes).length =
       (([sentinelProbe]).filter fun r => r.total.isSome && r.source_node ≠ "unknown" &&
         lookupNodes svcNodes r.target_service ≠ []).length ∧
     pairTotal [sentinelProbe] (pairKey goodProbe) =
       pairCross [sentinelProbe] svcNodes (pairKey goodProbe) +
         (([sentinelProbe]).filter fun r => pairKey r = pairKey goodProbe &&
           r.source_node ∈ lookupNodes svcNodes r.target_service).length) :=
  ⟨by decide,
    locality_partition [goodProbe] [sentinelProbe] svcNodes (pairKey goodProbe) (by decide)⟩

/-! ## Scaling correlator lemmas -/

theorem map_timestamp_filterMap_if (keys hpaTs : List String) (f : String → CsvRow)
    (hf : ∀ ts, (f ts).timestamp = ts) :
    ((keys.filterMap fun ts => if ts ∈ hpaTs then none else some (f ts)).map
      (·.timestamp)) = keys.filter fun ts => ts ∉ hpaTs := by
  induction keys with
  | nil => simp
  | cons a t ih =>
    by_cases ha : a ∈ hpaTs
    · simp [List.filterMap_cons, ha, ih]
    · simp [List.filterMap_cons, ha, ih, hf]

theorem totalsAtTs_eq_nil_of_not_key (probes : List Probe) (ts : String)
    (h : ts ∉ probeTsKeys probes) : totalsAtTs probes ts = [] := by
  by_cases hts : ts = ""
  · simp [totalsAtTs, hts]
  · rw [totalsAtTs, if_neg hts]
    by_contra hne
    obtain ⟨v, hv⟩ := List.exists_mem_of_ne_nil _ hne
    obtain ⟨r, hr, hrv⟩ := List.mem_filterMap.mp hv
    obtain ⟨hrp, hrts⟩ := List.mem_filter.mp hr
    have hts' : r.timestamp = ts := by simpa using hrts
    apply h
    rw [probeTsKeys, mem_firstDedup]
    refine List.mem_map.mpr ⟨r, List.mem_filter.mpr ⟨hrp, ?_⟩, hts'⟩
    simp [hts', hts, Option.isSome_iff_exists]
    exact ⟨v, hrv⟩

theorem map_timestamp_hpaRows (hpa : List (String × List (String × HpaInfo)))
    (probes : List Probe) :
    (hpaRows hpa probes).map (·.timestamp) = hpa.map Prod.fst := by
  rw [hpaRows, List.map_map]
  simp [hpaRow, Function.comp_def]

theorem map_timestamp_probeOnlyRows (hpa : List (String × List (String × HpaInfo)))
    (probes : List Probe) :
    (probeOnlyRows hpa probes).map (·.timestamp) =
      (probeTsKeys probes).filter fun ts => ts ∉ hpa.map Prod.fst :=
  map_timestamp_filterMap_if _ _ _ fun ts => rfl

/-- Claim C5 counterexample: with no autoscaler snapshot the correlator
emits no row set at all even though a probe timestamp exists; with autoscaler
snapshots present but the probe file missing it likewise emits no row set; a
probe timestamp whose probes carry no `total` metric gets no row (here the
emitted timestamps are exactly `["t0"]`, missing `"t9"`); and duplicated
autoscaler timestamps produce one row each (two rows for the single distinct
timestamp `"t0"`). -/
theorem rows_union_counterexample :
    (buildRows [] (some [tProbe]) = none ∧ probeTsKeys [tProbe] = ["t1"]) ∧
    buildRows oneHpa none = none ∧
    ((buildRows oneHpa (some [noTotalProbe])).map
        (fun rows => rows.map (·.timestamp)) = some ["t0"] ∧
      noTotalProbe.timestamp = "t9" ∧ ("t9" : String) ≠ "t0") ∧
    (∃ rows, buildRows twoHpa (some []) = some rows ∧ rows.length = 2 ∧
      ∀ row ∈ rows, row.timestamp = "t0") := by
  refine ⟨⟨rfl, by decide⟩, rfl, ⟨?_, rfl, by decide⟩, ?_⟩
  · have h1 : probeOnlyRows oneHpa [noTotalProbe] = [] := by
      have : probeTsKeys [noTotalProbe] = [] := by decide
      rw [probeOnlyRows, this]
      rfl
    have h2 : buildRows oneHpa (some [noTotalProbe]) =
        some ((hpaRows oneHpa [noTotalProbe]).mergeSort
          (fun a b => a.timestamp ≤ b.timestamp)) := by
      simp only [buildRows]
      rw [if_neg (by decide), h1, List.append_nil]
    rw [h2]
    simp only [Option.map_some', Option.some_inj]
    have h3 : hpaRows oneHpa [noTotalProbe] =
        [hpaRow (allHpaNames oneHpa) [noTotalProbe] "t0" [("web", ⟨some 1, some 1⟩)]] := rfl
    rw [h3, List.mergeSort_singleton]
    simp [hpaRow]
  · refine ⟨_, by simp only [buildRows]; rw [if_neg (by decide)], ?_, ?_⟩
    · rw [List.length_mergeSort]
      have h1 : probeTsKeys ([] : List Probe) = [] := rfl
      simp [hpaRows, probeOnlyRows, h1, twoHpa]
    · intro row hrow
      have hmem := (List.mergeSort_perm
        (hpaRows twoHpa [] ++ probeOnlyRows twoHpa []) _).mem_iff.mp hrow
      have h1 : probeOnlyRows twoHpa [] = [] := rfl
      rw [h1, List.append_nil, hpaRows] at hmem
      obtain ⟨e, he, rfl⟩ := List.mem_map.mp hmem
      have he1 : e.1 = "t0" := by
        rcases List.mem_cons.mp he with h | h
        · rw [h]
        · rw [List.mem_singleton] at h
          rw [h]
      simpa [hpaRow] using he1

/-- Claim C5 amended: provided the probe file exists and at least one
autoscaler snapshot was ingested (with pairwise distinct timestamps, as the
loader's distinct file stems guarantee), the emitted row set has exactly one
row per distinct timestamp in the union of the autoscaler timestamps and the
probe timestamps carrying a `total` metric; probe-only timestamps get empty
replica cells and timestamps with no `total`-carrying probes get empty
latency cells.  With the probe file missing, or with no autoscaler snapshot,
no row set is emitted at all, and a probe timestamp without a `total` metric
emits no row (see the counterexample). -/
theorem rows_union (hpa : List (String × List (String × HpaInfo))) (probes : List Probe)
    (hne : hpa ≠ []) (hnd : (hpa.map Prod.fst).Nodup) :
    ∃ rows, buildRows hpa (some probes) = some rows ∧
      (rows.map (·.timestamp)).Nodup ∧
      (∀ t, t ∈ rows.map (·.timestamp) ↔
        t ∈ hpa.map Prod.fst ∨ t ∈ probeTsKeys probes) ∧
      (∀ row ∈ rows, row.timestamp ∉ hpa.map Prod.fst →
        ∀ e ∈ row.reps, e.2.1 = "" ∧ e.2.2 = "") ∧
      (∀ row ∈ rows, row.timestamp ∉ probeTsKeys probes →
        row.p95 = none ∧ row.p99 = none) := by
  have hperm : List.Perm
      ((hpaRows hpa probes ++ probeOnlyRows hpa probes).mergeSort
        (fun a b => a.timestamp ≤ b.timestamp))
      (hpaRows hpa probes ++ probeOnlyRows hpa probes) := List.mergeSort_perm _ _
  refine ⟨_, by simp only [buildRows]; rw [if_neg (by simpa using hne)], ?_, ?_, ?_, ?_⟩
  · refine ((hperm.map (·.timestamp)).nodup_iff).mpr ?_
    rw [List.map_append, map_timestamp_hpaRows, map_timestamp_probeOnlyRows]
    refine List.Nodup.append hnd (List.Nodup.filter _ (firstDedup_nodup _)) ?_
    intro t ht1 ht2
    exact (of_decide_eq_true (List.mem_filter.mp ht2).2) ht1
  · intro t
    have hmem : t ∈ (((hpaRows hpa probes ++ probeOnlyRows hpa probes).mergeSort
          (fun a b => a.timestamp ≤ b.timestamp)).map (·.timestamp)) ↔
        t ∈ ((hpaRows hpa probes ++ probeOnlyRows hpa probes).map (·.timestamp)) :=
      (hperm.map (·.timestamp)).mem_iff
    rw [hmem, List.map_append, map_timestamp_hpaRows, map_timestamp_probeOnlyRows,
      List.mem_append, List.mem_filter]
    constructor
    · rintro (h | ⟨h1, _⟩)
      · exact Or.inl h
      · exact Or.inr h1
    · rintro (h | h)
      · exact Or.inl h
      · by_cases hh : t ∈ hpa.map Prod.fst
        · exact Or.inl hh
        · exact Or.inr ⟨h, by simpa using hh⟩
  · intro row hrow hnot e he
    rcases List.mem_append.mp (hperm.mem_iff.mp hrow) with h | h
    · obtain ⟨x, hx, rfl⟩ := List.mem_map.mp h
      exact absurd (List.mem_map.mpr ⟨x, hx, by simp [hpaRow]⟩) hnot
    · obtain ⟨ts, _, hts2⟩ := List.mem_filterMap.mp h
      by_cases hmem2 : ts ∈ hpa.map Prod.fst
      · rw [if_pos hmem2] at hts2
        exact absurd hts2 (by simp)
      · rw [if_neg hmem2, Option.some_inj] at hts2
        rw [← hts2] at he
        obtain ⟨n, _, hne'⟩ := List.mem_map.mp (by simpa [probeOnlyRow] using he)
        rw [← hne']
        exact ⟨rfl, rfl⟩
  · intro row hrow hnot
    rcases List.mem_append.mp (hperm.mem_iff.mp hrow) with h | h
    · obtain ⟨x, hx, rfl⟩ := List.mem_map.mp h
      have hts : (hpaRow (allHpaNames hpa) probes x.1 x.2).timestamp = x.1 := rfl
      have hnil : totalsAtTs probes x.1 = [] :=
        totalsAtTs_eq_nil_of_not_key probes x.1 (by rwa [hts] at hnot)
      constructor <;> simp [hpaRow, hnil, percentile]
    · obtain ⟨ts, hts, hts2⟩ := List.mem_filterMap.mp h
      by_cases hmem2 : ts ∈ hpa.map Prod.fst
      · rw [if_pos hmem2] at hts2
        exact absurd hts2 (by simp)
      · rw [if_neg hmem2, Option.some_inj] at hts2
        rw [← hts2] at hnot
        exact absurd (by simpa [probeOnlyRow] using hts) hnot

/-- Witness for `rows_union` at one autoscaler snapshot and one
`total`-carrying probe. -/
theorem rows_union_witness :
    (oneHpa ≠ [] ∧ (oneHpa.map Prod.fst).Nodup) ∧
    (∃ rows, buildRows oneHpa (some [tProbe]) = some rows ∧
      (rows.map (·.timestamp)).Nodup ∧
      (∀ t, t ∈ rows.map (·.timestamp) ↔
        t ∈ oneHpa.map Prod.fst ∨ t ∈ probeTsKeys [tProbe]) ∧
      (∀ row ∈ rows, row.timestamp ∉ oneHpa.map Prod.fst →
        ∀ e ∈ row.reps, e.2.1 = "" ∧ e.2.2 = "") ∧
      (∀ row ∈ rows, row.timestamp ∉ probeTsKeys [tProbe] →
        row.p95 = none ∧ row.p99 = none)) :=
  ⟨⟨by decide, by decide⟩, rows_union oneHpa [tProbe] (by decide) (by decide)⟩

end NetAnalysis
